import Mathlib

/-!
Verification of the build-configuration discovery pipeline of the
`geckocpp` / `mozillacpp` VS Code extension.

The repository contains several historical iterations of the same modules
concatenated together.  Each definition below is a shallow embedding of one
concrete source function (named in its doc comment).  JavaScript strings are
modelled as `List Char`; JavaScript `Map` objects are modelled as
insertion-ordered association lists whose `set` replaces an existing key in
place and appends a fresh key; JavaScript `Set` objects are modelled as
insertion-ordered duplicate-free lists.
-/

set_option maxHeartbeats 1000000

namespace GeckoCpp

/-- The single-quote character (written numerically to keep sources plain). -/
def squote : Char := Char.ofNat 39

/-- The double-quote character. -/
def dquote : Char := Char.ofNat 34

/-- The backslash character. -/
def bslash : Char := Char.ofNat 92

/-- The newline character. -/
def nlChar : Char := Char.ofNat 10

/-- JavaScript whitespace (the ASCII part relevant to this code base):
space, tab, newline, carriage return, vertical tab, form feed. -/
def isWsJs (c : Char) : Bool :=
  c = ' ' || c = Char.ofNat 9 || c = nlChar || c = Char.ofNat 13 ||
  c = Char.ofNat 11 || c = Char.ofNat 12

/-- Source `String.prototype.trim`: strip whitespace from both ends. -/
def trimBoth (s : List Char) : List Char :=
  ((s.dropWhile (fun c => isWsJs c)).reverse.dropWhile (fun c => isWsJs c)).reverse

/-- Source `String.prototype.split('\n')`: split on newline, separators removed,
empty pieces kept (`"".split` gives one empty piece). -/
def splitOnNl : List Char → List (List Char)
  | [] => [[]]
  | c :: rest =>
    let r := splitOnNl rest
    if c = nlChar then [] :: r
    else
      match r with
      | t :: ts => (c :: t) :: ts
      | [] => [[c]]

/-- Source `String.prototype.startsWith`. -/
def startsWithL : List Char → List Char → Bool
  | [], _ => true
  | _ :: _, [] => false
  | p :: ps, c :: cs => p = c && startsWithL ps cs

/-- Source `String.prototype.endsWith`. -/
def endsWithL (p s : List Char) : Bool :=
  startsWithL p.reverse s.reverse

/-- Source `charAt(0)` (as an `Option`: JavaScript returns `""` past the end, which
compares unequal to every single character). -/
def headChar : List Char → Option Char
  | [] => none
  | c :: _ => some c

/-- Source `charAt(1)`. -/
def secondChar : List Char → Option Char
  | _ :: c :: _ => some c
  | _ => none

/-- Source `String.prototype.indexOf` for a single-character needle. -/
def idxOf (c : Char) : List Char → Option Nat
  | [] => none
  | d :: rest => if d = c then some 0 else (idxOf c rest).map (· + 1)

/-- JavaScript `Set.prototype.add`: insertion-ordered, no duplicates. -/
def setAddL (s : List (List Char)) (x : List Char) : List (List Char) :=
  if x ∈ s then s else s ++ [x]

/-- JavaScript `Map.prototype.get` on an insertion-ordered association list. -/
def jsLookup {β : Type} : List (List Char × β) → List Char → Option β
  | [], _ => none
  | (k, v) :: rest, a => if k = a then some v else jsLookup rest a

/-- JavaScript `Map.prototype.set`: replace the (unique) existing entry for the
key in place, append a fresh key at the end. -/
def mapSet {β : Type} : List (List Char × β) → List Char → β → List (List Char × β)
  | [], k, v => [(k, v)]
  | (k', v') :: rest, k, v =>
    if k' = k then (k, v) :: rest else (k', v') :: mapSet rest k v

theorem jsLookup_mapSet {β : Type} (m : List (List Char × β)) (k a : List Char) (v : β) :
    jsLookup (mapSet m k v) a = if a = k then some v else jsLookup m a := by
  induction m with
  | nil =>
    by_cases ha : a = k
    · subst ha; simp [mapSet, jsLookup]
    · have : ¬k = a := fun hh => ha hh.symm
      simp [mapSet, jsLookup, ha, this]
  | cons p rest ih =>
    obtain ⟨k', v'⟩ := p
    by_cases hk : k' = k
    · by_cases ha : a = k
      · simp [mapSet, jsLookup, hk, ha]
      · have h2 : ¬k = a := fun hh => ha hh.symm
        have h3 : ¬k' = a := hk ▸ h2
        simp [mapSet, jsLookup, hk, ha, h2, h3]
    · by_cases ha : k' = a
      · have h2 : ¬a = k := fun hh => hk (ha.trans hh)
        simp [mapSet, jsLookup, hk, ha, h2]
      · simp [mapSet, jsLookup, hk, ha, ih]

/-! ### Command-line tokenizer used by the final flag parser

`src/src/compiler.ts` (and `src/unnamed/part_008`) tokenize per-file command
lines with `bashShellParse` from `./shell`.  The final iteration of `shell.ts`
(the one exporting `bashShellParse` / `bashShellQuote`) is absent from `src/`;
only its callers are present. -/

/-- Modelled from the spec: `bashShellParse`, the command-line tokenizer of the
final `shell.ts` (absent from `src/`), per spec section 4.1: tokens are
separated by unquoted whitespace; a single- or double-quoted span keeps its
inner whitespace and is stripped of the quote pair; a backslash-escaped quote
character inside a span does not terminate it (both characters are kept);
an unterminated quote consumes to the end of the string; zero-length tokens
are dropped.  State: remaining input, the currently open quote (if any), a
pending-escape flag (inside a span, a backslash keeps itself and the next
character verbatim, so an escaped quote does not terminate the span), the
token accumulated so far. -/
def bashTokGo : List Char → Option Char → Bool → List Char → List (List Char)
  | [], _, _, cur => if cur = [] then [] else [cur]
  | c :: rest, some q, true, cur => bashTokGo rest (some q) false (cur ++ [c])
  | c :: rest, some q, false, cur =>
    if c = q then bashTokGo rest none false cur
    else if c = bslash then bashTokGo rest (some q) true (cur ++ [c])
    else bashTokGo rest (some q) false (cur ++ [c])
  | c :: rest, none, _, cur =>
    if isWsJs c then
      if cur = [] then bashTokGo rest none false []
      else cur :: bashTokGo rest none false []
    else if c = squote ∨ c = dquote then bashTokGo rest (some c) false cur
    else bashTokGo rest none false (cur ++ [c])

/-- Modelled from the spec: entry point of the tokenizer (see `bashTokGo`). -/
def bashShellParse (s : List Char) : List (List Char) := bashTokGo s none false []

/-! ### The flag parser of `src/src/compiler.ts` (lines 26-98)

`Define`, `buildDefine`, `CompileConfig` and `addCompilerArgumentsToConfig`
from the newest iteration in `src/src/compiler.ts`.  `FilePath.fromUnixy` and
`FilePath.fromPath` are modelled as the identity on the underlying string
(posix separators; the absolute-path validation throw is not modelled, no
claim depends on it). -/

/-- Source `interface Define { key, value }` of `src/src/compiler.ts`. -/
structure Define where
  key : List Char
  value : List Char
  deriving DecidableEq

/-- Source `buildDefine(text, splitter)` of `src/src/compiler.ts`: split at the first
occurrence of the (single-character) splitter; a text without the splitter
becomes `key := text, value := "1"`. -/
def buildDefine (text : List Char) (splitter : Char) : Define :=
  match idxOf splitter text with
  | some pos => ⟨text.take pos, text.drop (pos + 1)⟩
  | none => ⟨text, ['1']⟩

/-- Source `interface CompileConfig` of `src/src/compiler.ts`. -/
structure CompileConfig where
  includes : List (List Char)
  defines : List (List Char × Define)
  forcedIncludes : List (List Char)
  intelliSenseMode : List Char
  standard : List Char
  compilerPath : Option (List Char)
  windowsSdkVersion : Option (List Char)
  deriving DecidableEq

/-- The token-processing loop of `addCompilerArgumentsToConfig`
(`src/src/compiler.ts` lines 68-98), after tokenization.  The `while
(arg = args.shift())` head makes an empty-string token terminate the loop
(JavaScript falsiness).  Tokens shorter than two characters or not starting
with `-` or `/` are skipped; `-D`/`/D` adds a define (last write wins via
`Map.set`); `-I`/`/I` adds an include; the force-include flag consumes the
next token as a forced include; everything else is skipped. -/
def addArgsLoop (fia : List Char) : List (List Char) → CompileConfig → CompileConfig
  | [], cfg => cfg
  | arg :: rest, cfg =>
    if arg = [] then cfg
    else if arg.length < 2 ∨ (headChar arg ≠ some '-' ∧ headChar arg ≠ some '/') then
      addArgsLoop fia rest cfg
    else if secondChar arg = some 'D' then
      let d := buildDefine (arg.drop 2) '='
      addArgsLoop fia rest { cfg with defines := mapSet cfg.defines d.key d }
    else if secondChar arg = some 'I' then
      addArgsLoop fia rest { cfg with includes := setAddL cfg.includes (arg.drop 2) }
    else if arg = fia then
      match rest with
      | [] => cfg
      | inc :: rest2 =>
        addArgsLoop fia rest2 { cfg with forcedIncludes := setAddL cfg.forcedIncludes inc }
    else addArgsLoop fia rest cfg

/-- Source `addCompilerArgumentsToConfig(cmdLine, forceIncludeArg, config)` on a
present command line: tokenize, then run the loop. -/
def addCompilerArgumentsToConfig (cmdLine : List Char) (fia : List Char)
    (cfg : CompileConfig) : CompileConfig :=
  addArgsLoop fia (bashShellParse cmdLine) cfg

/-- The define contributed by one token, mirroring exactly the conditions of
the `-D` branch of `addArgsLoop`. -/
def toDefineTok (arg : List Char) : Option Define :=
  if arg = [] then none
  else if arg.length < 2 ∨ (headChar arg ≠ some '-' ∧ headChar arg ≠ some '/') then none
  else if secondChar arg = some 'D' then some (buildDefine (arg.drop 2) '=')
  else none

/-- The last define for key `k` contributed by a token list (later tokens
win). -/
def lastDefineFor (args : List (List Char)) (k : List Char) : Option Define :=
  match args with
  | [] => none
  | arg :: rest =>
    match lastDefineFor rest k with
    | some d => some d
    | none =>
      match toDefineTok arg with
      | some d => if d.key = k then some d else none
      | none => none

theorem addArgsLoop_cons (fia arg : List Char) (rest : List (List Char))
    (cfg : CompileConfig) :
    addArgsLoop fia (arg :: rest) cfg =
      if arg = [] then cfg
      else if arg.length < 2 ∨ (headChar arg ≠ some '-' ∧ headChar arg ≠ some '/') then
        addArgsLoop fia rest cfg
      else if secondChar arg = some 'D' then
        let d := buildDefine (arg.drop 2) '='
        addArgsLoop fia rest { cfg with defines := mapSet cfg.defines d.key d }
      else if secondChar arg = some 'I' then
        addArgsLoop fia rest { cfg with includes := setAddL cfg.includes (arg.drop 2) }
      else if arg = fia then
        match rest with
        | [] => cfg
        | inc :: rest2 =>
          addArgsLoop fia rest2 { cfg with forcedIncludes := setAddL cfg.forcedIncludes inc }
      else addArgsLoop fia rest cfg := by
  rw [addArgsLoop.eq_def]

theorem addArgsLoop_defines (fia : List Char) (args : List (List Char))
    (cfg : CompileConfig) (k : List Char)
    (h1 : ([] : List Char) ∉ args) (h2 : fia ∉ args) :
    jsLookup (addArgsLoop fia args cfg).defines k =
      match lastDefineFor args k with
      | some d => some d
      | none => jsLookup cfg.defines k := by
  induction args generalizing cfg with
  | nil => simp [addArgsLoop, lastDefineFor]
  | cons arg rest ih =>
    have harg : ¬arg = [] := fun h => h1 (by simp [h])
    have hfia : ¬arg = fia := fun h => h2 (by simp [h])
    have h1' : ([] : List Char) ∉ rest := fun h => h1 (List.mem_cons_of_mem _ h)
    have h2' : fia ∉ rest := fun h => h2 (List.mem_cons_of_mem _ h)
    by_cases hskip : arg.length < 2 ∨ (headChar arg ≠ some '-' ∧ headChar arg ≠ some '/')
    · rw [addArgsLoop_cons, if_neg harg, if_pos hskip, ih _ h1' h2']
      have htok : toDefineTok arg = none := by
        rw [toDefineTok, if_neg harg, if_pos hskip]
      cases hl : lastDefineFor rest k <;> simp [lastDefineFor, hl, htok]
    · by_cases hD : secondChar arg = some 'D'
      · rw [addArgsLoop_cons, if_neg harg, if_neg hskip, if_pos hD]
        rw [ih _ h1' h2']
        have htok : toDefineTok arg = some (buildDefine (arg.drop 2) '=') := by
          rw [toDefineTok, if_neg harg, if_neg hskip, if_pos hD]
        cases hl : lastDefineFor rest k with
        | some d => simp [lastDefineFor, hl, htok]
        | none =>
          simp only [lastDefineFor, hl, htok, jsLookup_mapSet]
          by_cases hdk : (buildDefine (arg.drop 2) '=').key = k
          · simp [hdk]
          · have : ¬k = (buildDefine (arg.drop 2) '=').key := fun h => hdk h.symm
            simp [hdk, this]
      · have htok : toDefineTok arg = none := by
          rw [toDefineTok, if_neg harg, if_neg hskip, if_neg hD]
        by_cases hI : secondChar arg = some 'I'
        · rw [addArgsLoop_cons, if_neg harg, if_neg hskip, if_neg hD, if_pos hI, ih _ h1' h2']
          cases hl : lastDefineFor rest k <;> simp [lastDefineFor, hl, htok]
        · rw [addArgsLoop_cons, if_neg harg, if_neg hskip, if_neg hD, if_neg hI, if_neg hfia,
            ih _ h1' h2']
          cases hl : lastDefineFor rest k <;> simp [lastDefineFor, hl, htok]

/-- The `-include` force-include flag spelling of the Clang dialect. -/
def fiaInclude : List Char := "-include".data

/-- Baseline defaults `{A=1, B=2}` of the spec's define-merge example. -/
def defaultsAB : CompileConfig :=
  { includes := []
    defines := [("A".data, ⟨"A".data, "1".data⟩), ("B".data, ⟨"B".data, "2".data⟩)]
    forcedIncludes := []
    intelliSenseMode := "clang-x64".data
    standard := "c++14".data
    compilerPath := none
    windowsSdkVersion := none }

/-- The defaults of the example merged with the per-file line `-DB=3 -DC`. -/
def mergedExample : CompileConfig :=
  addCompilerArgumentsToConfig "-DB=3 -DC".data fiaInclude defaultsAB

/-- C1: merging a per-file compiler command line into the baseline defaults
lets a per-file define override a default of the same key, the last occurrence
of a key in the line wins, and a valueless define gets the value "1"; in
particular defaults `{A=1, B=2}` merged with `-DB=3 -DC` give exactly
`{A=1, B=3, C=1}`.  (`src/src/compiler.ts` `addCompilerArgumentsToConfig`
together with `RecursiveMakeBuild.getSourceConfiguration`, which clones the
defaults and adds the per-file arguments.) -/
theorem c1_define_merge :
    (∀ (fia : List Char) (args : List (List Char)) (cfg : CompileConfig) (k : List Char),
        ([] : List Char) ∉ args → fia ∉ args →
        jsLookup (addArgsLoop fia args cfg).defines k =
          match lastDefineFor args k with
          | some d => some d
          | none => jsLookup cfg.defines k) ∧
    mergedExample.defines =
      [("A".data, ⟨"A".data, "1".data⟩), ("B".data, ⟨"B".data, "3".data⟩),
        ("C".data, ⟨"C".data, "1".data⟩)] :=
  ⟨fun fia args cfg k h1 h2 => addArgsLoop_defines fia args cfg k h1 h2, by decide⟩

/-- Witness for C1 at the concrete example: the tokenized `-DB=3 -DC` line
contains no empty token and no `-include`, and the merged map sends `B` to
`B=3`. -/
theorem c1_define_merge_witness :
    (([] : List Char) ∉ bashShellParse "-DB=3 -DC".data) ∧
    (fiaInclude ∉ bashShellParse "-DB=3 -DC".data) ∧
    jsLookup mergedExample.defines "B".data = some ⟨"B".data, "3".data⟩ :=
  ⟨by decide, by decide,
    (c1_define_merge.1 fiaInclude (bashShellParse "-DB=3 -DC".data) defaultsAB
      "B".data (by decide) (by decide)).trans (by decide)⟩

/-! ### Probe-output parsing

Two iterations of `ClangCompiler.parseCompilerDefaults` exist in `src/`:
the string-based one of `src/src/compiler.ts` (lines 169-195), which has a
single plain `includes` set, and the line-list one of `src/unnamed/part_008`
(lines 234-263), which separates user, system and macOS-framework include
directories. -/

/-- Source `FRAMEWORK_MARKER`. -/
def fmMarker : List Char := " (framework directory)".data

/-- The `#include` search-path banner prefix. -/
def incBanner : List Char := "#include ".data

/-- The macro-definition banner prefix. -/
def defBanner : List Char := "#define ".data

/-- Source `line.charAt(i) === c` (false past the end of the string). -/
def charAtIs (s : List Char) (i : Nat) (c : Char) : Bool :=
  match headChar (s.drop i) with
  | some d => d = c
  | none => false

/-- State of the `src/src/compiler.ts` parser: the `inIncludes` flag and the
configuration being filled in. -/
structure ParseState1 where
  inInc : Bool
  cfg : CompileConfig

/-- One line of `ClangCompiler.parseCompilerDefaults` of `src/src/compiler.ts`
(lines 169-195).  Inside an include block an indented line is an include
entry; a trailing framework marker is stripped but the path still goes into
the single plain `includes` set (this iteration has no framework set); a
non-indented line leaves the block and is then matched against the two
banners; a `#define` line becomes a define (split at the first space,
defaulting to "1"). -/
def pdsLine (st : ParseState1) (line : List Char) : ParseState1 :=
  if st.inInc ∧ headChar line = some ' ' then
    let inc := trimBoth line
    let inc2 := if endsWithL fmMarker inc then inc.take (inc.length - fmMarker.length) else inc
    { st with cfg := { st.cfg with includes := setAddL st.cfg.includes inc2 } }
  else
    let st2 : ParseState1 := { st with inInc := false }
    if startsWithL incBanner line then { st2 with inInc := true }
    else if startsWithL defBanner line then
      let d := buildDefine (trimBoth (line.drop 8)) ' '
      { st2 with cfg := { st2.cfg with defines := mapSet st2.cfg.defines d.key d } }
    else st2

/-- Source `ClangCompiler.parseCompilerDefaults(output, defaults)` of
`src/src/compiler.ts`: trim the captured output, split into lines, run the
state machine with `inIncludes` starting at false. -/
def parseCompilerDefaultsStr (output : List Char) (cfg : CompileConfig) : CompileConfig :=
  ((splitOnNl (trimBoth output)).foldl pdsLine ⟨false, cfg⟩).cfg

/-- The baseline configuration object built by `ClangCompiler.fetch` before
parsing (`src/src/compiler.ts` lines 225-231). -/
def initClangDefaults (std : List Char) : CompileConfig :=
  { includes := []
    defines := []
    forcedIncludes := []
    intelliSenseMode := "clang-x64".data
    standard := std
    compilerPath := none
    windowsSdkVersion := none }

/-- Source `Except.isOk` as a plain function. -/
def exOk {ε α : Type} : Except ε α → Bool
  | .ok _ => true
  | .error _ => false

/-- The tail of `ClangCompiler.fetch` of `src/src/compiler.ts` (lines
222-245) after the probe process ran: parse stdout then stderr into the
fresh defaults and fail when the define map stayed empty (and no
`compilerPath` was set — it never is at this point). -/
def clangFetchTail (stdout stderr : List Char) : Except (List Char) CompileConfig :=
  let d := parseCompilerDefaultsStr stderr
    (parseCompilerDefaultsStr stdout (initClangDefaults "c++14".data))
  if d.defines = [] ∧ d.compilerPath = none then
    Except.error "Failed to discover compiler defaults.".data
  else Except.ok d

/-- The corresponding tail of the oldest `ClangCompiler.fetch` iteration
(`src/src/compiler.ts` lines 546-569, check at lines 560-562): it fails when
the include set or the define map is empty. -/
def clangFetchTailOld (stdout stderr : List Char) : Except (List Char) CompileConfig :=
  let d := parseCompilerDefaultsStr stderr
    (parseCompilerDefaultsStr stdout (initClangDefaults "c++14".data))
  if d.includes = [] ∨ d.defines = [] then
    Except.error "Compiler returned empty includes or defined.".data
  else Except.ok d

theorem pdsLine_compilerPath (st : ParseState1) (line : List Char) :
    (pdsLine st line).cfg.compilerPath = st.cfg.compilerPath := by
  unfold pdsLine
  split
  · rfl
  · split
    · rfl
    · split <;> rfl

theorem foldl_pdsLine_compilerPath (lines : List (List Char)) (st : ParseState1) :
    (lines.foldl pdsLine st).cfg.compilerPath = st.cfg.compilerPath := by
  induction lines generalizing st with
  | nil => rfl
  | cons l rest ih => rw [List.foldl_cons, ih, pdsLine_compilerPath]

theorem parseCompilerDefaultsStr_compilerPath (output : List Char) (cfg : CompileConfig) :
    (parseCompilerDefaultsStr output cfg).compilerPath = cfg.compilerPath := by
  unfold parseCompilerDefaultsStr
  rw [foldl_pdsLine_compilerPath]

/-- C6 (amended): in the current `ClangCompiler.fetch` (`src/src/compiler.ts`
lines 222-245) compiler creation after a successful probe run fails exactly
when the parsed define map is empty: an empty define map takes the error
branch, and at least one parsed define avoids it. -/
theorem c6_empty_defines_fail (stdout stderr : List Char) :
    exOk (clangFetchTail stdout stderr) = true ↔
      (parseCompilerDefaultsStr stderr
        (parseCompilerDefaultsStr stdout (initClangDefaults "c++14".data))).defines ≠ [] := by
  have hcp : (parseCompilerDefaultsStr stderr
      (parseCompilerDefaultsStr stdout (initClangDefaults "c++14".data))).compilerPath = none := by
    rw [parseCompilerDefaultsStr_compilerPath, parseCompilerDefaultsStr_compilerPath]
    rfl
  by_cases hd : (parseCompilerDefaultsStr stderr
      (parseCompilerDefaultsStr stdout (initClangDefaults "c++14".data))).defines = [] <;>
    simp [clangFetchTail, hd, hcp, exOk]

/-- Witness for C6 (amended): a probe whose stdout is `#define X 1` yields a
nonempty define map and compiler creation succeeds. -/
theorem c6_empty_defines_fail_witness :
    exOk (clangFetchTail "#define X 1".data []) = true :=
  (c6_empty_defines_fail "#define X 1".data []).mpr (by decide)

/-- A probe output consisting of a single macro definition and no include
paths. -/
def probeDefinesOnly : List Char := "#define X 1".data

/-- C6 (counterexample to the claim as stated): the oldest iteration of
`ClangCompiler.fetch` (`src/src/compiler.ts` lines 560-562) also takes the
same error branch when the include list is empty, so a successful probe
whose output yields a define (here `X`) still fails compiler creation there,
contradicting the claim's converse direction. -/
theorem c6_empty_defaults_counterexample :
    exOk (clangFetchTailOld probeDefinesOnly []) = false ∧
      (parseCompilerDefaultsStr []
        (parseCompilerDefaultsStr probeDefinesOnly (initClangDefaults "c++14".data))).defines ≠ [] :=
  ⟨by decide, by decide⟩

/-! ### The `part_008` probe-output parser (the newest iteration) -/

/-- Source `class Define` of `src/unnamed/part_008`: the value of a valueless define
stays `undefined`. -/
structure Define8 where
  key : List Char
  value : Option (List Char)
  deriving DecidableEq

/-- Source `Define.fromCode` of `src/unnamed/part_008`: split at the first space. -/
def define8FromCode (code : List Char) : Define8 :=
  match idxOf ' ' code with
  | some pos => ⟨code.take pos, some (code.drop (pos + 1))⟩
  | none => ⟨code, none⟩

/-- Source `interface CompileConfig` of `src/unnamed/part_008`. -/
structure CompileConfig8 where
  includes : List (List Char)
  defaultIncludes : List (List Char)
  defaultSysIncludes : List (List Char)
  osxFrameworkIncludes : List (List Char)
  defines : List (List Char × Define8)
  defaultDefines : List (List Char × Define8)
  forcedIncludes : List (List Char)
  intelliSenseMode : List Char
  standard : List Char
  compilerPath : Option (List Char)
  windowsSdkVersion : Option (List Char)
  osxSdk : Option (List Char)
  deriving DecidableEq

/-- State of the `part_008` parser: `inIncludes`, `inSysIncludes`, and the
configuration being filled in. -/
structure ParseState8 where
  inInc : Bool
  inSysInc : Bool
  cfg : CompileConfig8

/-- One line of `ClangCompiler.parseCompilerDefaults` of
`src/unnamed/part_008` (lines 234-263).  Inside an include block an indented
line is an include entry: with the trailing framework marker it is stripped
and recorded under `osxFrameworkIncludes`, otherwise it goes to the system or
user default include set depending on the opening delimiter of the banner;
a `#define` line becomes a default define. -/
def pd8Line (st : ParseState8) (line : List Char) : ParseState8 :=
  if st.inInc ∧ headChar line = some ' ' then
    let inc := trimBoth line
    if endsWithL fmMarker inc then
      let fw := setAddL st.cfg.osxFrameworkIncludes (inc.take (inc.length - fmMarker.length))
      { st with cfg := { st.cfg with osxFrameworkIncludes := fw } }
    else if st.inSysInc then
      { st with cfg := { st.cfg with defaultSysIncludes := setAddL st.cfg.defaultSysIncludes inc } }
    else
      { st with cfg := { st.cfg with defaultIncludes := setAddL st.cfg.defaultIncludes inc } }
  else
    let st2 : ParseState8 := { st with inInc := false }
    if startsWithL incBanner line then
      { st2 with inInc := true, inSysInc := charAtIs line 9 '<' }
    else if startsWithL defBanner line then
      let d := define8FromCode (trimBoth (line.drop 8))
      { st2 with cfg := { st2.cfg with defaultDefines := mapSet st2.cfg.defaultDefines d.key d } }
    else st2

/-- Source `ClangCompiler.parseCompilerDefaults(output, defaults)` of
`src/unnamed/part_008`: fold the state machine over the given output lines
with both flags starting at false. -/
def parseCompilerDefaults8 (output : List (List Char)) (cfg : CompileConfig8) :
    CompileConfig8 :=
  (output.foldl pd8Line ⟨false, false, cfg⟩).cfg

/-- C2 (amended): in the parsers that keep a separate framework-includes set
(`src/unnamed/part_008`, similarly `part_005`), a probe-output line inside an
include block ending with the framework marker is recorded with the marker
stripped in the framework set, and the plain include sets (`defaultIncludes`,
`defaultSysIncludes`, `includes`) are left untouched by that line. -/
theorem c2_framework_marker (st : ParseState8) (line : List Char)
    (h1 : st.inInc = true) (h2 : headChar line = some ' ')
    (h3 : endsWithL fmMarker (trimBoth line) = true) :
    (pd8Line st line).cfg.osxFrameworkIncludes =
      setAddL st.cfg.osxFrameworkIncludes
        ((trimBoth line).take ((trimBoth line).length - fmMarker.length)) ∧
    (pd8Line st line).cfg.defaultIncludes = st.cfg.defaultIncludes ∧
    (pd8Line st line).cfg.defaultSysIncludes = st.cfg.defaultSysIncludes ∧
    (pd8Line st line).cfg.includes = st.cfg.includes := by
  simp [pd8Line, h1, h2, h3]

/-- An empty `part_008` configuration. -/
def emptyCfg8 : CompileConfig8 :=
  { includes := []
    defaultIncludes := []
    defaultSysIncludes := []
    osxFrameworkIncludes := []
    defines := []
    defaultDefines := []
    forcedIncludes := []
    intelliSenseMode := "clang-x64".data
    standard := "c++14".data
    compilerPath := none
    windowsSdkVersion := none
    osxSdk := none }

/-- The framework example line of the spec. -/
def fwLine : List Char := " /System/Library/Frameworks (framework directory)".data

/-- Witness for C2 at the spec's example line, inside a system include
block. -/
theorem c2_framework_marker_witness :
    (⟨true, true, emptyCfg8⟩ : ParseState8).inInc = true ∧
    headChar fwLine = some ' ' ∧
    endsWithL fmMarker (trimBoth fwLine) = true ∧
    (pd8Line ⟨true, true, emptyCfg8⟩ fwLine).cfg.osxFrameworkIncludes =
      ["/System/Library/Frameworks".data] :=
  ⟨rfl, by decide, by decide,
    ((c2_framework_marker ⟨true, true, emptyCfg8⟩ fwLine rfl (by decide) (by decide)).1).trans
      (by decide)⟩

/-- A probe output with an include block containing a framework line. -/
def fwProbeOut : List Char :=
  ("#include <...> search starts here:\n /Library/Frameworks (framework directory)").data

/-- C2 (counterexample to the claim as stated): the intermediate parser of
`src/src/compiler.ts` (lines 169-195) has no framework-includes set at all;
it strips the marker but records the path in the plain `includes` set, so the
claim's "never places it in the plain-includes set" fails on this cited
parser. -/
theorem c2_framework_counterexample :
    (parseCompilerDefaultsStr fwProbeOut (initClangDefaults "c++14".data)).includes =
      ["/Library/Frameworks".data] := by decide

/-! ### The `-isysroot` flag (C5) -/

/-- The per-file configuration produced by merging `-isysroot /DBAR` into an
empty baseline with the current flag parser. -/
def isysrootExample : CompileConfig :=
  addCompilerArgumentsToConfig "-isysroot /DBAR".data fiaInclude
    (initClangDefaults "c++14".data)

/-- C5 (counterexample to the claim as stated): the cited flag parser
`addCompilerArgumentsToConfig` of `src/src/compiler.ts` (lines 68-98) has no
`-isysroot` case, so the argument following `-isysroot` is parsed on its own;
when it begins with `/D` it is interpreted as a define (`BAR=1` here),
contradicting "the following argument is never interpreted as a define,
include, or forced include". -/
theorem c5_isysroot_counterexample :
    jsLookup isysrootExample.defines "BAR".data = some ⟨"BAR".data, "1".data⟩ := by
  decide

/-- Source `cpptools.SourceFileConfiguration` as filled in by
`parseConfigFromCmdLine` of `src/unnamed/part_005` (the collection parts). -/
structure SourceFileCfg where
  includePath : List (List Char)
  defines : List (List Char)
  forcedInclude : List (List Char)
  deriving DecidableEq

/-- The token-processing loop of `parseConfigFromCmdLine`
(`src/unnamed/part_005` lines 53-80, the same loop as
`MachConfigurationProvider.parseConfigFromCmdLine` in `src/src/provider.ts`
lines 89-116): `-D`/`-I` accumulate defines and include paths as strings,
`-include` consumes the next token as a forced include, and `-isysroot`
consumes and drops the next token. -/
def parseCfgLoop : List (List Char) → SourceFileCfg → SourceFileCfg
  | [], cfg => cfg
  | arg :: rest, cfg =>
    if arg = [] then cfg
    else if arg.length < 2 ∨ (headChar arg ≠ some '-' ∧ headChar arg ≠ some '/') then
      parseCfgLoop rest cfg
    else if secondChar arg = some 'D' then
      parseCfgLoop rest { cfg with defines := setAddL cfg.defines (arg.drop 2) }
    else if secondChar arg = some 'I' then
      parseCfgLoop rest { cfg with includePath := setAddL cfg.includePath (arg.drop 2) }
    else if arg = "-include".data then
      match rest with
      | [] => cfg
      | inc :: rest2 =>
        if inc = [] then parseCfgLoop rest2 cfg
        else parseCfgLoop rest2 { cfg with forcedInclude := setAddL cfg.forcedInclude inc }
    else if arg = "-isysroot".data then
      match rest with
      | [] => cfg
      | _ :: rest2 => parseCfgLoop rest2 cfg
    else parseCfgLoop rest cfg

/-- C5 (amended): the `parseConfigFromCmdLine` parser (`src/src/provider.ts`,
`src/unnamed/part_005`) consumes an encountered `-isysroot` flag together
with its immediately following argument and drops both, leaving the
configuration exactly as if the pair were absent — so there the follower is
never interpreted as a define, include, or forced include. -/
theorem c5_isysroot_consumed (follower : List Char) (rest : List (List Char))
    (cfg : SourceFileCfg) :
    parseCfgLoop ("-isysroot".data :: follower :: rest) cfg = parseCfgLoop rest cfg :=
  rfl

/-- Witness for C5 (amended) at a concrete command line: `-isysroot /SDK`
followed by nothing parses to the untouched empty configuration. -/
theorem c5_isysroot_consumed_witness :
    parseCfgLoop ("-isysroot".data :: "/SDK".data :: []) ⟨[], [], []⟩ =
      parseCfgLoop [] ⟨[], [], []⟩ :=
  c5_isysroot_consumed "/SDK".data [] ⟨[], [], []⟩

/-! ### Header-language classification (C3)

Per-file resolution classifies a file by its extension.
`WorkspaceFolder.getCachedConfiguration` (`src/src/folders.ts` lines 563-585
and the identical earlier copy at lines 262-284) maps the extension `h`
unconditionally to `cpp` and picks the compiler whose extension tag matches;
`RecursiveMakeBuild.getSourceConfiguration` (`src/src/build.ts` lines 235-262)
handles only `.c` and `.cpp`.  Neither consults the filesystem. -/

/-- The basename (the part after the last `/`). -/
def basenameOf (file : List Char) : List Char :=
  (file.reverse.takeWhile (fun c => c ≠ '/')).reverse

/-- Node's `path.extname` on a posix path: the suffix of the basename from its
last dot, empty when there is no dot or the only dot is the leading character
of the basename. -/
def extnameOf (file : List Char) : List Char :=
  let b := basenameOf file
  if b.any (fun c => c = '.') then
    let suffix := (b.reverse.takeWhile (fun c => c ≠ '.')).reverse
    if b.length - suffix.length - 1 = 0 then [] else '.' :: suffix
  else []

/-- The extension-driven compiler selection of
`WorkspaceFolder.getCachedConfiguration` (`src/src/folders.ts` lines 563-585):
take the file's extension without its dot, map `h` to `cpp`, and return the
first compiler tag (of `environmentInfo.compilers`) equal to it; a file with
no extension or no matching compiler gets no configuration. -/
def selectCompilerExt (exts : List (List Char)) (file : List Char) : Option (List Char) :=
  let e := extnameOf file
  if e.length > 0 then
    let e2 := e.drop 1
    let e3 := if e2 = ['h'] then "cpp".data else e2
    exts.find? (fun x => decide (x = e3))
  else none

/-- Modelled from the spec (comparison definition for the refinement claim):
spec section 4.6 — "headers treated as the C++ type unless a same-named `.c`
sibling file exists, in which case treat as C"; other files are classified by
their bare extension. -/
def specHeaderLanguage (file : List Char) (hasCSibling : Bool) : List Char :=
  if extnameOf file = ".h".data then
    if hasCSibling then "c".data else "cpp".data
  else (extnameOf file).drop 1

/-- C3 (counterexample to the claim as stated): for `/src/x.h` with an
existing sibling `/src/x.c` (`hasCSibling := true`) the spec rule classifies
the header as C, but the resolver — whose classification is a function of the
file name only and never consults the filesystem — still selects the `cpp`
compiler. -/
theorem c3_header_counterexample :
    selectCompilerExt ["c".data, "cpp".data] "/src/x.h".data = some "cpp".data ∧
    specHeaderLanguage "/src/x.h".data true = "c".data ∧
    "cpp".data ≠ "c".data :=
  ⟨by decide, by decide, by decide⟩

/-- C3 (amended): a header file is always resolved as the C++ type: whenever
the extension is `.h`, `getCachedConfiguration` selects the compiler tagged
`cpp` (whatever the compiler list is), with no sibling check. -/
theorem c3_header_always_cpp (exts : List (List Char)) (file : List Char)
    (h : extnameOf file = ".h".data) :
    selectCompilerExt exts file = exts.find? (fun x => decide (x = "cpp".data)) := by
  unfold selectCompilerExt
  rw [h]
  rfl

/-- Witness for C3 (amended) at `/src/x.h` with compilers `[c, cpp]`. -/
theorem c3_header_always_cpp_witness :
    extnameOf "/src/x.h".data = ".h".data ∧
    selectCompilerExt ["c".data, "cpp".data] "/src/x.h".data = some "cpp".data :=
  ⟨by decide,
    (c3_header_always_cpp ["c".data, "cpp".data] "/src/x.h".data (by decide)).trans
      (by decide)⟩

/-! ### The `shellParse` tokenizer of `src/src/shell.ts` (C4)

`shellParse` drives four JavaScript regular expressions.  Three of them share
the shape `/^((A|B))*C/` — note the capture group around a single repetition
unit, so the captured group holds only the *last* unit.  `starFind` is a
faithful model of the backtracking search for this shape: it prefers another
repetition (unit `A` before unit `B`) over stopping the star and matching
`C`; it returns the length of the whole match (`result[0].length`) and of the
captured last unit (`result[1].length`, 0 encoding the `undefined` capture of
a zero-repetition match).  The fuel argument only bounds the recursion depth
and is always called with more fuel than the string length. -/
def starFind (isA : Char → Bool) (isB : Char → Char → Bool) (isC : Char → Bool) :
    Nat → List Char → Nat → Option (Nat × Nat)
  | 0, _, _ => none
  | fuel + 1, s, last =>
    (match s with
      | c :: rest =>
        if isA c then (starFind isA isB isC fuel rest 1).map (fun (p : Nat × Nat) => (p.1 + 1, p.2))
        else none
      | [] => none).orElse fun _ =>
    (match s with
      | c1 :: c2 :: rest =>
        if isB c1 c2 then (starFind isA isB isC fuel rest 2).map (fun (p : Nat × Nat) => (p.1 + 2, p.2))
        else none
      | _ => none).orElse fun _ =>
    (match s with
      | c :: _ => if isC c then some (1, last) else none
      | [] => none)

/-- Source `singleFinder = /^((?:.|\\'))*'/`: unit `A` is any non-newline character,
unit `B` is backslash-quote, the closer is a single quote. -/
def jsSingleFind (s : List Char) : Option (Nat × Nat) :=
  starFind (fun c => decide (c ≠ nlChar)) (fun c1 c2 => c1 = bslash && c2 = squote)
    (fun c => c = squote) (s.length + 1) s 0

/-- Source `doubleFinder`, the same with double quotes. -/
def jsDoubleFind (s : List Char) : Option (Nat × Nat) :=
  starFind (fun c => decide (c ≠ nlChar)) (fun c1 c2 => c1 = bslash && c2 = dquote)
    (fun c => c = dquote) (s.length + 1) s 0

/-- Source `endFinder = /^((?:\S|\\ ))* /`: unit `A` is any non-whitespace character,
unit `B` is backslash-space, the closer is a literal space. -/
def jsEndFind (s : List Char) : Option (Nat × Nat) :=
  starFind (fun c => !isWsJs c) (fun c1 c2 => c1 = bslash && c2 = ' ')
    (fun c => c = ' ') (s.length + 1) s 0

/-- Source `nextFinder = /^\s*(\S)/`: the length of the whole match (whitespace plus
one character) and the captured character. -/
def jsNextFind (s : List Char) : Option (Nat × Char) :=
  let w := (s.takeWhile (fun c => isWsJs c)).length
  match s.drop w with
  | c :: _ => some (w + 1, c)
  | [] => none

/-- The `while` loop of `shellParse` (`src/src/shell.ts` lines 10-48), with
`pathConvert` absent so `push` appends the raw string.  Each round finds the
next non-whitespace character; on a quote the quote is dropped and the
matching finder runs on the remainder, otherwise `endFinder` runs from that
character on.  A failed finder pushes the whole remainder and stops.  A
successful finder pushes `cmdLine.substring(0, result[1].length)` — the
prefix whose length is that of the captured *last unit* — and drops
`result[0].length` characters.  `none` models the TypeError thrown when the
capture group is `undefined` (zero repetitions).  The fuel only bounds the
number of rounds; every continuing round consumes at least one character. -/
def shellParseGo : Nat → List Char → Option (List (List Char))
  | 0, _ => none
  | fuel + 1, cmdLine =>
    match jsNextFind cmdLine with
    | none => some []
    | some (n, c) =>
      if c = dquote ∨ c = squote then
        let rest := cmdLine.drop n
        match (if c = dquote then jsDoubleFind rest else jsSingleFind rest) with
        | none => some [rest]
        | some (r0, r1) =>
          if r1 = 0 then none
          else (shellParseGo fuel (rest.drop r0)).map (fun ts => rest.take r1 :: ts)
      else
        let rest := cmdLine.drop (n - 1)
        match jsEndFind rest with
        | none => some [rest]
        | some (r0, r1) =>
          if r1 = 0 then none
          else (shellParseGo fuel (rest.drop r0)).map (fun ts => rest.take r1 :: ts)

/-- Source `shellParse(cmdLine)` of `src/src/shell.ts`. -/
def shellParse (s : List Char) : Option (List (List Char)) :=
  shellParseGo (s.length + 1) s

/-- Modelled from the spec: the external `split-string` library as configured
by `splitCmdLine` (`quotes: true, separator: ' '`): the string is split at
every separator character that is not inside a quoted span, quote characters
are kept in the tokens, and empty tokens are kept.  (Backslash escapes are
not modelled; no claim input contains them.) -/
def splitStringGo : List Char → Option Char → List Char → List (List Char)
  | [], _, cur => [cur]
  | c :: rest, some q, cur =>
    if c = q then splitStringGo rest none (cur ++ [c])
    else splitStringGo rest (some q) (cur ++ [c])
  | c :: rest, none, cur =>
    if c = ' ' then cur :: splitStringGo rest none []
    else if c = squote ∨ c = dquote then splitStringGo rest (some c) (cur ++ [c])
    else splitStringGo rest none (cur ++ [c])

/-- Modelled from the spec: entry point of the `split-string` model. -/
def splitStringLib (s : List Char) : List (List Char) := splitStringGo s none []

/-- The per-token quote stripper of `splitCmdLine` (`src/src/shared.ts` lines
158-169): a token of length at least two that starts and ends with the same
quote character loses exactly that pair. -/
def stripQuotePair (s : List Char) : List Char :=
  if s.length < 2 then s
  else if (headChar s = some squote ∧ s.getLast? = some squote) ∨
      (headChar s = some dquote ∧ s.getLast? = some dquote) then
    (s.drop 1).dropLast
  else s

/-- Source `splitCmdLine(cmdline)` of `src/src/shared.ts` (lines 154-170): trim, split
with the library, strip one quote pair per token. -/
def splitCmdLine (s : List Char) : List (List Char) :=
  (splitStringLib (trimBoth s)).map stripQuotePair

/-- C4: evaluation of the tokenizers at the claim's own example
`"-DFOO=1 -I/usr/include"`.  `shellParse` (`src/src/shell.ts`) returns
`["-", "-I/usr/include"]`: its regexes place the capture group around a
single repetition unit, so `push(cmdLine.substring(0, result[1].length))`
pushes a one-character prefix instead of the token — the claimed tokens are
produced by `splitCmdLine` (`src/src/shared.ts`), which fixed the related
one-character loss of `provider.ts`'s `stripQuotes`. -/
theorem c4_tokenizer_eval :
    shellParse "-DFOO=1 -I/usr/include".data =
      some ["-".data, "-I/usr/include".data] ∧
    splitCmdLine "-DFOO=1 -I/usr/include".data =
      ["-DFOO=1".data, "-I/usr/include".data] ∧
    "-".data ≠ "-DFOO=1".data :=
  ⟨by decide, by decide, by decide⟩

/-! ### Path rebasing (C7)

`FilePath.rebase(from, to)` (`src/src/shared.ts` lines 130-133, identical to
`Path.rebase` of `src/unnamed/part_004`) is
`path.join(to, path.relative(from, this))`.  Node's posix `path.relative` and
`path.join` are external; they are modelled at the level of component lists
of normalized absolute paths. -/

/-- The `..` path component. -/
def dotdotC : List Char := "..".data

/-- The `.` path component. -/
def dotC : List Char := ".".data

/-- Modelled from the spec: Node's posix `path.relative` on normalized
absolute paths given as component lists — drop the common prefix, then one
`..` per remaining component of `from` followed by the remaining components
of `to`. -/
def pathRelative : List (List Char) → List (List Char) → List (List Char)
  | [], t => t
  | f, [] => f.map (fun _ => dotdotC)
  | a :: f, b :: t =>
    if a = b then pathRelative f t
    else (a :: f).map (fun _ => dotdotC) ++ (b :: t)

/-- Modelled from the spec: Node's posix `path.join` of an absolute base and
relative components — append, normalizing `..` (drop the last base
component), `.` and empty components. -/
def joinComps : List (List Char) → List (List Char) → List (List Char)
  | base, [] => base
  | base, c :: rest =>
    if c = dotdotC then joinComps base.dropLast rest
    else if c = dotC ∨ c = [] then joinComps base rest
    else joinComps (base ++ [c]) rest

/-- Source `FilePath.rebase(from, to)`: join `to` with the path's position relative
to `from`. -/
def rebaseP (p base target : List (List Char)) : List (List Char) :=
  joinComps target (pathRelative base p)

theorem pathRelative_append (base rel : List (List Char)) :
    pathRelative base (base ++ rel) = rel := by
  induction base with
  | nil => simp [pathRelative]
  | cons a f ih => simpa [pathRelative] using ih

theorem joinComps_clean (rel : List (List Char)) :
    ∀ base, (∀ c ∈ rel, c ≠ dotdotC ∧ c ≠ dotC ∧ c ≠ []) →
      joinComps base rel = base ++ rel := by
  induction rel with
  | nil => intro base _; simp [joinComps]
  | cons c rest ih =>
    intro base h
    obtain ⟨h1, h2, h3⟩ := h c (by simp)
    have hrest : ∀ d ∈ rest, d ≠ dotdotC ∧ d ≠ dotC ∧ d ≠ [] :=
      fun d hd => h d (by simp [hd])
    simp only [joinComps, h1, h2, h3, if_false, or_self, ite_false]
    rw [ih (base ++ [c]) hrest]
    simp

/-- C7: for a path strictly under `srcRoot` (i.e. `srcRoot ++ rel` with a
nonempty, normalized relative suffix), `rebase(srcRoot, objRoot)` yields the
path under `objRoot` with the same relative suffix, and rebasing the result
back with `rebase(objRoot, srcRoot)` returns exactly the original path. -/
theorem c7_rebase_roundtrip (srcRoot objRoot rel : List (List Char))
    (_hne : rel ≠ [])
    (h : ∀ c ∈ rel, c ≠ dotdotC ∧ c ≠ dotC ∧ c ≠ []) :
    rebaseP (srcRoot ++ rel) srcRoot objRoot = objRoot ++ rel ∧
    rebaseP (rebaseP (srcRoot ++ rel) srcRoot objRoot) objRoot srcRoot =
      srcRoot ++ rel := by
  have h1 : rebaseP (srcRoot ++ rel) srcRoot objRoot = objRoot ++ rel := by
    unfold rebaseP
    rw [pathRelative_append, joinComps_clean rel objRoot h]
  refine ⟨h1, ?_⟩
  rw [h1]
  unfold rebaseP
  rw [pathRelative_append, joinComps_clean rel srcRoot h]

/-- Witness for C7 at `/src/a/b.c` rebased between `/src` and `/obj`. -/
theorem c7_rebase_roundtrip_witness :
    rebaseP (["src".data] ++ ["a".data, "b.c".data]) ["src".data] ["obj".data] =
      ["obj".data] ++ ["a".data, "b.c".data] ∧
    rebaseP (rebaseP (["src".data] ++ ["a".data, "b.c".data]) ["src".data] ["obj".data])
      ["obj".data] ["src".data] = ["src".data] ++ ["a".data, "b.c".data] :=
  c7_rebase_roundtrip ["src".data] ["obj".data] ["a".data, "b.c".data]
    (by decide) (by decide)

/-! ### Structured-environment conversion: `into` (C8)

`into(json, template)` of `src/src/shared.ts` (lines 172-207) converts a
parsed JSON value to the shape of a template value;
`intoEnvironment` (`src/src/build.ts` lines 30-43) applies it to the
environment template.  JavaScript values are modelled by `JsValue`
(`jsUndefined` models the absence of a field). -/

/-- A JavaScript value as seen by `into`. -/
inductive JsValue : Type where
  | jsUndefined : JsValue
  | jsNull : JsValue
  | jsBool : Bool → JsValue
  | jsNum : Int → JsValue
  | jsStr : String → JsValue
  | jsArr : List JsValue → JsValue
  | jsObj : List (String × JsValue) → JsValue

/-- JavaScript `typeof` (note `typeof null === "object"` and arrays are
objects). -/
def typeOfJs : JsValue → String
  | .jsUndefined => "undefined"
  | .jsNull => "object"
  | .jsBool _ => "boolean"
  | .jsNum _ => "number"
  | .jsStr _ => "string"
  | .jsArr _ => "object"
  | .jsObj _ => "object"

/-- Is the value `null`? -/
def isNullJs : JsValue → Bool
  | .jsNull => true
  | _ => false

/-- Property lookup on an object literal. -/
def lookupStr {β : Type} : List (String × β) → String → Option β
  | [], _ => none
  | (k, v) :: rest, a => if k = a then some v else lookupStr rest a

/-- Source `json[key]` for a non-null value: a missing property reads as
`undefined` (arrays and primitives have no named properties here).  `null`
never reaches this function — property access on it throws and is modelled
in `intoFields`. -/
def getFieldJs : JsValue → String → JsValue
  | .jsObj fs, k => (lookupStr fs k).getD .jsUndefined
  | _, _ => .jsUndefined

mutual

/-- Source `into(json, template)` of `src/src/shared.ts` (lines 172-207).  An array
template first: `undefined`/`null` convert to `[]`, a non-array json is an
error, a template of length other than one is an error, otherwise the
elements are converted pointwise.  For a non-array template the source
compares `typeof json` with `typeof template` (an inequality is an error) and
then treats object-typed templates field by field and returns the json value
unchanged for primitive templates; the comparison is spelled out here per
template constructor with `typeof template` evaluated (`"object"` for the
`null` template, whose field loop `Object.keys(null)` throws a TypeError on
an object-typed json). -/
def intoJs : JsValue → JsValue → Except String JsValue
  | json, .jsArr ts =>
    match json with
    | .jsUndefined => .ok (.jsArr [])
    | .jsNull => .ok (.jsArr [])
    | .jsArr es =>
      match ts with
      | [t] => (intoElems es t).map .jsArr
      | _ => .error "Invalid template"
    | _ => .error "Unable to convert to an array."
  | json, .jsObj tf =>
    if typeOfJs json ≠ "object" then .error "Type mismatch."
    else (intoFields json tf).map .jsObj
  | json, .jsNull =>
    if typeOfJs json ≠ "object" then .error "Type mismatch."
    else .error "TypeError"
  | json, .jsUndefined =>
    if typeOfJs json ≠ "undefined" then .error "Type mismatch." else .ok json
  | json, .jsBool _ =>
    if typeOfJs json ≠ "boolean" then .error "Type mismatch." else .ok json
  | json, .jsNum _ =>
    if typeOfJs json ≠ "number" then .error "Type mismatch." else .ok json
  | json, .jsStr _ =>
    if typeOfJs json ≠ "string" then .error "Type mismatch." else .ok json

/-- Source `json.map((v) => into(v, template[0]))` with error propagation. -/
def intoElems : List JsValue → JsValue → Except String (List JsValue)
  | [], _ => .ok []
  | e :: es, t => do
    let v ← intoJs e t
    let vs ← intoElems es t
    .ok (v :: vs)

/-- The `for (let key of Object.keys(template))` loop of `into`: build the
result object field by field from `into(json[key], template[key])`.  Property
access on a `null` json throws (TypeError) as soon as there is a key. -/
def intoFields : JsValue → List (String × JsValue) → Except String (List (String × JsValue))
  | _, [] => .ok []
  | json, (k, t) :: rest =>
    if isNullJs json then .error "TypeError"
    else do
      let v ← intoJs (getFieldJs json k) t
      let vs ← intoFields json rest
      .ok ((k, v) :: vs)

end

theorem exBindErr {ε α β : Type} (e : ε) (f : α → Except ε β) :
    (Except.error e >>= f) = Except.error e := rfl

theorem exBindOk {ε α β : Type} (a : α) (f : α → Except ε β) :
    (Except.ok a >>= f) = f a := rfl

theorem exMapErr {ε α β : Type} (e : ε) (f : α → β) :
    (Except.error e : Except ε α).map f = Except.error e := rfl

theorem exMapOk {ε α β : Type} (a : α) (f : α → β) :
    (Except.ok a : Except ε α).map f = Except.ok (f a) := rfl

/-- The `MachEnvironment` template of `intoEnvironment`
(`src/src/build.ts` lines 30-43). -/
def envTemplate : JsValue :=
  .jsObj
    [("mozconfig", .jsObj
        [("configure_args", .jsArr [.jsStr ""]),
          ("make_extra", .jsArr [.jsStr ""]),
          ("make_flags", .jsArr [.jsStr ""]),
          ("path", .jsStr "")]),
      ("topobjdir", .jsStr ""),
      ("topsrcdir", .jsStr "")]

/-- Source `intoEnvironment(json)` of `src/src/build.ts`. -/
def intoEnvironmentJs (json : JsValue) : Except String JsValue :=
  intoJs json envTemplate

/-- C8 (counterexample to the claim as stated): converting the JSON object
`{}` — every field absent — with the environment template raises an error
(`mozconfig` reads as `undefined`, whose `typeof` mismatches the object
template), rather than returning a defaulted result; so absent non-array
fields are not tolerated. -/
theorem intoJs_undefined_obj (tf : List (String × JsValue)) :
    intoJs JsValue.jsUndefined (JsValue.jsObj tf) = Except.error "Type mismatch." := by
  simp only [intoJs, typeOfJs]
  rw [if_pos]
  decide

theorem c8_into_counterexample :
    exOk (intoEnvironmentJs (.jsObj [])) = false := by
  rw [intoEnvironmentJs, envTemplate]
  simp only [intoJs, typeOfJs]
  rw [if_neg (by decide)]
  simp only [intoFields, isNullJs, getFieldJs, lookupStr, Option.getD]
  rw [intoJs_undefined_obj, exBindErr, if_neg (by decide), exMapErr]
  rfl

theorem intoFields_ignores_extra (k : String) (v : JsValue)
    (json : List (String × JsValue)) (tf : List (String × JsValue))
    (h : ∀ p ∈ tf, p.1 ≠ k) :
    intoFields (.jsObj ((k, v) :: json)) tf = intoFields (.jsObj json) tf := by
  induction tf with
  | nil => simp [intoFields]
  | cons p rest ih =>
    obtain ⟨k2, t⟩ := p
    have hk : k2 ≠ k := h (k2, t) (by simp)
    have hk2 : ¬k = k2 := fun hh => hk hh.symm
    have hrest : ∀ p ∈ rest, p.1 ≠ k := fun p hp => h p (by simp [hp])
    simp only [intoFields, isNullJs, getFieldJs, lookupStr, hk2, if_false, ih hrest]

theorem intoFields_shape (tf : List (String × JsValue)) :
    ∀ (json : JsValue) (fs : List (String × JsValue)),
      intoFields json tf = .ok fs → fs.map Prod.fst = tf.map Prod.fst := by
  induction tf with
  | nil =>
    intro json fs h
    simp [intoFields] at h
    simp [← h]
  | cons p rest ih =>
    obtain ⟨k, t⟩ := p
    intro json fs h
    by_cases hn : isNullJs json = true
    · simp [intoFields, hn] at h
    · simp only [intoFields, hn, Bool.false_eq_true, if_false] at h
      cases h1 : intoJs (getFieldJs json k) t with
      | error e => rw [h1, exBindErr] at h; exact absurd h (by simp)
      | ok v =>
        rw [h1, exBindOk] at h
        cases h2 : intoFields json rest with
        | error e => rw [h2, exBindErr] at h; exact absurd h (by simp)
        | ok vs =>
          rw [h2, exBindOk] at h
          have hfs : (k, v) :: vs = fs := by simpa using h
          rw [← hfs]
          simp [ih json vs h2]

/-- C8 (amended): only array-typed template positions tolerate a missing
field — `undefined` and `null` convert to the empty array; extra fields of
the json object are ignored (conversion only reads the template's keys); and
a successful object conversion has exactly the template's shape (its list of
keys). -/
theorem c8_into_tolerance :
    (∀ t : JsValue,
        intoJs .jsUndefined (.jsArr [t]) = .ok (.jsArr []) ∧
        intoJs .jsNull (.jsArr [t]) = .ok (.jsArr [])) ∧
    (∀ (k : String) (v : JsValue) (json : List (String × JsValue))
        (tf : List (String × JsValue)), (∀ p ∈ tf, p.1 ≠ k) →
        intoJs (.jsObj ((k, v) :: json)) (.jsObj tf) = intoJs (.jsObj json) (.jsObj tf)) ∧
    (∀ (json : JsValue) (tf fs : List (String × JsValue)),
        intoFields json tf = .ok fs → fs.map Prod.fst = tf.map Prod.fst) := by
  refine ⟨fun t => ⟨by simp [intoJs], by simp [intoJs]⟩, ?_,
    fun json tf fs h => intoFields_shape tf json fs h⟩
  intro k v json tf h
  simp only [intoJs, typeOfJs, intoFields_ignores_extra k v json tf h]

/-- Witness for C8 (amended): an extra field `extra` is ignored against a
template with the single key `topobjdir`, and a missing array field defaults
to the empty array. -/
theorem c8_into_tolerance_witness :
    intoJs (.jsObj [("extra", .jsStr "x")]) (.jsObj [("topobjdir", .jsStr "")]) =
      intoJs (.jsObj []) (.jsObj [("topobjdir", .jsStr "")]) ∧
    intoJs .jsUndefined (.jsArr [.jsStr ""]) = .ok (.jsArr []) :=
  ⟨c8_into_tolerance.2.1 "extra" (.jsStr "x") [] [("topobjdir", .jsStr "")] (by decide),
    (c8_into_tolerance.1 (.jsStr "")).1⟩

/-! ### Baseline immutability under per-file configuration (C9)

`Compiler.getDefaultConfiguration` (`src/src/compiler.ts` lines 147-149)
returns `cloneConfig(this.defaults)` (lines 56-66), and
`RecursiveMakeBuild.getSourceConfiguration` (`src/src/build.ts` lines
235-262) then calls `addCompilerArgumentsToConfig` on the clone (the same
clone-then-add shape as `getConfigForArguments` of `src/unnamed/part_008`).
To express that the stored baseline is not mutated, the mutable `Set` and
`Map` objects are given an explicit heap: a configuration holds cell ids,
`cloneConfig` allocates fresh cells copying the contents, and the argument
loop updates cells in place. -/

/-- A `CompileConfig` as an object graph: cell ids of its `includes` set,
`defines` map and `forcedIncludes` set, plus the scalar fields (copied by
value). -/
structure CfgRef where
  incId : Nat
  defId : Nat
  fincId : Nat
  intelliSenseMode : List Char
  standard : List Char
  compilerPath : Option (List Char)
  windowsSdkVersion : Option (List Char)

/-- The heap: an allocation counter, the contents of every set cell and of
every map cell. -/
structure CfgStore where
  next : Nat
  setsF : Nat → List (List Char)
  mapsF : Nat → List (List Char × Define)

/-- Update one cell. -/
def updCell {β : Type} (f : Nat → β) (i : Nat) (v : β) : Nat → β :=
  fun j => if j = i then v else f j

/-- Source `cloneConfig(config)` (`src/src/compiler.ts` lines 56-66) in the heap
model: `new FilePathSet(config.includes)`, `new Map(config.defines)` and
`new FilePathSet(config.forcedIncludes)` allocate fresh cells whose contents
copy the originals; the scalar fields are copied by value. -/
def cloneConfigS (base : CfgRef) (s : CfgStore) : CfgRef × CfgStore :=
  (⟨s.next, s.next + 1, s.next + 2, base.intelliSenseMode, base.standard,
      base.compilerPath, base.windowsSdkVersion⟩,
    { next := s.next + 3
      setsF := updCell (updCell s.setsF s.next (s.setsF base.incId)) (s.next + 2)
        (s.setsF base.fincId)
      mapsF := updCell s.mapsF (s.next + 1) (s.mapsF base.defId) })

/-- The `addCompilerArgumentsToConfig` token loop (`src/src/compiler.ts`
lines 68-98) in the heap model: the same branches as `addArgsLoop`, with
every mutation an in-place update of one of the given configuration's
cells. -/
def addArgsLoopS (fia : List Char) : List (List Char) → CfgRef → CfgStore → CfgStore
  | [], _, s => s
  | arg :: rest, r, s =>
    if arg = [] then s
    else if arg.length < 2 ∨ (headChar arg ≠ some '-' ∧ headChar arg ≠ some '/') then
      addArgsLoopS fia rest r s
    else if secondChar arg = some 'D' then
      let d := buildDefine (arg.drop 2) '='
      addArgsLoopS fia rest r
        { s with mapsF := updCell s.mapsF r.defId (mapSet (s.mapsF r.defId) d.key d) }
    else if secondChar arg = some 'I' then
      addArgsLoopS fia rest r
        { s with setsF := updCell s.setsF r.incId (setAddL (s.setsF r.incId) (arg.drop 2)) }
    else if arg = fia then
      match rest with
      | [] => s
      | inc :: rest2 =>
        addArgsLoopS fia rest2 r
          { s with setsF := updCell s.setsF r.fincId (setAddL (s.setsF r.fincId) inc) }
    else addArgsLoopS fia rest r s

theorem addArgsLoopS_cons (fia arg : List Char) (rest : List (List Char))
    (r : CfgRef) (s : CfgStore) :
    addArgsLoopS fia (arg :: rest) r s =
      if arg = [] then s
      else if arg.length < 2 ∨ (headChar arg ≠ some '-' ∧ headChar arg ≠ some '/') then
        addArgsLoopS fia rest r s
      else if secondChar arg = some 'D' then
        let d := buildDefine (arg.drop 2) '='
        addArgsLoopS fia rest r
          { s with mapsF := updCell s.mapsF r.defId (mapSet (s.mapsF r.defId) d.key d) }
      else if secondChar arg = some 'I' then
        addArgsLoopS fia rest r
          { s with setsF := updCell s.setsF r.incId (setAddL (s.setsF r.incId) (arg.drop 2)) }
      else if arg = fia then
        match rest with
        | [] => s
        | inc :: rest2 =>
          addArgsLoopS fia rest2 r
            { s with setsF := updCell s.setsF r.fincId (setAddL (s.setsF r.fincId) inc) }
      else addArgsLoopS fia rest r s := by
  rw [addArgsLoopS.eq_def]

/-- The per-file configuration computation: clone the baseline, add the
per-file arguments to the clone. -/
def perFileConfigS (fia : List Char) (args : List (List Char)) (base : CfgRef)
    (s : CfgStore) : CfgRef × CfgStore :=
  let cs := cloneConfigS base s
  (cs.1, addArgsLoopS fia args cs.1 cs.2)

theorem addArgsLoopS_setsF (fia : List Char) (j : Nat) :
    ∀ (args : List (List Char)) (r : CfgRef) (s : CfgStore),
      j ≠ r.incId → j ≠ r.fincId →
      (addArgsLoopS fia args r s).setsF j = s.setsF j
  | [], _, _, _, _ => rfl
  | arg :: rest, r, s, h1, h2 => by
    rw [addArgsLoopS_cons]
    by_cases he : arg = []
    · rw [if_pos he]
    · rw [if_neg he]
      by_cases hskip : arg.length < 2 ∨ (headChar arg ≠ some '-' ∧ headChar arg ≠ some '/')
      · rw [if_pos hskip]
        exact addArgsLoopS_setsF fia j rest r s h1 h2
      · rw [if_neg hskip]
        by_cases hD : secondChar arg = some 'D'
        · rw [if_pos hD]
          rw [addArgsLoopS_setsF fia j rest r _ h1 h2]
        · rw [if_neg hD]
          by_cases hI : secondChar arg = some 'I'
          · rw [if_pos hI]
            rw [addArgsLoopS_setsF fia j rest r _ h1 h2]
            simp only [updCell]
            rw [if_neg h1]
          · rw [if_neg hI]
            by_cases hf : arg = fia
            · rw [if_pos hf]
              cases rest with
              | nil => rfl
              | cons inc rest2 =>
                show (addArgsLoopS fia rest2 r _).setsF j = s.setsF j
                rw [addArgsLoopS_setsF fia j rest2 r _ h1 h2]
                simp only [updCell]
                rw [if_neg h2]
            · rw [if_neg hf]
              exact addArgsLoopS_setsF fia j rest r s h1 h2
termination_by args _ _ _ _ => args.length

theorem addArgsLoopS_mapsF (fia : List Char) (j : Nat) :
    ∀ (args : List (List Char)) (r : CfgRef) (s : CfgStore),
      j ≠ r.defId →
      (addArgsLoopS fia args r s).mapsF j = s.mapsF j
  | [], _, _, _ => rfl
  | arg :: rest, r, s, h1 => by
    rw [addArgsLoopS_cons]
    by_cases he : arg = []
    · rw [if_pos he]
    · rw [if_neg he]
      by_cases hskip : arg.length < 2 ∨ (headChar arg ≠ some '-' ∧ headChar arg ≠ some '/')
      · rw [if_pos hskip]
        exact addArgsLoopS_mapsF fia j rest r s h1
      · rw [if_neg hskip]
        by_cases hD : secondChar arg = some 'D'
        · rw [if_pos hD]
          rw [addArgsLoopS_mapsF fia j rest r _ h1]
          simp only [updCell]
          rw [if_neg h1]
        · rw [if_neg hD]
          by_cases hI : secondChar arg = some 'I'
          · rw [if_pos hI]
            rw [addArgsLoopS_mapsF fia j rest r _ h1]
          · rw [if_neg hI]
            by_cases hf : arg = fia
            · rw [if_pos hf]
              cases rest with
              | nil => rfl
              | cons inc rest2 =>
                show (addArgsLoopS fia rest2 r _).mapsF j = s.mapsF j
                rw [addArgsLoopS_mapsF fia j rest2 r _ h1]
            · rw [if_neg hf]
              exact addArgsLoopS_mapsF fia j rest r s h1
termination_by args _ _ _ => args.length

/-- C9: computing a per-file configuration — cloning the baseline defaults
and adding the parsed per-file arguments to the clone — leaves the baseline's
include set, define map and forced-include set exactly unchanged, for every
baseline whose cells are allocated in the store (ids below the allocation
counter). -/
theorem c9_baseline_frame (fia : List Char) (args : List (List Char))
    (base : CfgRef) (s : CfgStore)
    (h1 : base.incId < s.next) (h2 : base.defId < s.next) (h3 : base.fincId < s.next) :
    ((perFileConfigS fia args base s).2).setsF base.incId = s.setsF base.incId ∧
    ((perFileConfigS fia args base s).2).mapsF base.defId = s.mapsF base.defId ∧
    ((perFileConfigS fia args base s).2).setsF base.fincId = s.setsF base.fincId := by
  unfold perFileConfigS cloneConfigS
  refine ⟨?_, ?_, ?_⟩
  · rw [addArgsLoopS_setsF fia base.incId args _ _ (by simp; omega) (by simp; omega)]
    simp only [updCell]
    rw [if_neg (by omega), if_neg (by omega)]
  · rw [addArgsLoopS_mapsF fia base.defId args _ _ (by simp; omega)]
    simp only [updCell]
    rw [if_neg (by omega)]
  · rw [addArgsLoopS_setsF fia base.fincId args _ _ (by simp; omega) (by simp; omega)]
    simp only [updCell]
    rw [if_neg (by omega), if_neg (by omega)]

/-- A concrete baseline reference for the C9 witness. -/
def wBase : CfgRef :=
  ⟨0, 1, 2, "clang-x64".data, "c++14".data, none, none⟩

/-- A concrete store for the C9 witness: the baseline's include set holds
`/usr/include`, its define map holds `A=1`. -/
def wStore : CfgStore :=
  { next := 3
    setsF := fun i => if i = 0 then ["/usr/include".data] else []
    mapsF := fun i => if i = 1 then [("A".data, ⟨"A".data, "1".data⟩)] else [] }

/-- Witness for C9: after merging `-DB=2 -I/x -include /f` into a clone of
the baseline, the baseline's cells still hold their original contents. -/
theorem c9_baseline_frame_witness :
    wBase.incId < wStore.next ∧ wBase.defId < wStore.next ∧ wBase.fincId < wStore.next ∧
    ((perFileConfigS fiaInclude (bashShellParse "-DB=2 -I/x -include /f".data)
        wBase wStore).2).setsF wBase.incId = ["/usr/include".data] ∧
    ((perFileConfigS fiaInclude (bashShellParse "-DB=2 -I/x -include /f".data)
        wBase wStore).2).mapsF wBase.defId = [("A".data, ⟨"A".data, "1".data⟩)] :=
  ⟨by decide, by decide, by decide,
    ((c9_baseline_frame fiaInclude (bashShellParse "-DB=2 -I/x -include /f".data)
        wBase wStore (by decide) (by decide) (by decide)).1).trans (by decide),
    ((c9_baseline_frame fiaInclude (bashShellParse "-DB=2 -I/x -include /f".data)
        wBase wStore (by decide) (by decide) (by decide)).2.1).trans (by decide)⟩

/-! ### `FilePathSet` value semantics (C10)

`FilePathSet` (`src/src/shared.ts` lines 144-152) instantiates
`TranslatedSet<string, FilePath>` (lines 21-86) with `intoB = toPath` and
`intoR = fromPath`: the backing `Set` holds the path strings, so membership,
deduplication and size are keyed on the string.  A `FilePath` object is
modelled with an extra `oid` field standing for JavaScript reference
identity; it has no counterpart in the source data and the operations
provably never read it. -/

/-- A `FilePath` object: its path string plus an object identity. -/
structure JsFilePath where
  path : List Char
  oid : Nat
  deriving DecidableEq

/-- Source `TranslatedSet.add`: `this.set.add(this.intoB(item))`. -/
def fpsAdd (s : List (List Char)) (p : JsFilePath) : List (List Char) :=
  setAddL s p.path

/-- Source `TranslatedSet.has`: `this.set.has(this.intoB(item))`. -/
def fpsHas (s : List (List Char)) (p : JsFilePath) : Bool :=
  decide (p.path ∈ s)

/-- Source `TranslatedSet.size`. -/
def fpsSize (s : List (List Char)) : Nat := s.length

/-- Source `TranslatedSet.values`: `intoR` of each base string, a fresh object per
call. -/
def fpsValues (s : List (List Char)) : List JsFilePath :=
  s.map (fun str => ⟨str, 0⟩)

/-- The `FilePathSet` constructor from an iterable: add each element. -/
def fpsFrom (ps : List JsFilePath) : List (List Char) :=
  ps.foldl fpsAdd []

theorem setAddL_nodup (s : List (List Char)) (x : List Char) (h : s.Nodup) :
    (setAddL s x).Nodup := by
  unfold setAddL
  by_cases hm : x ∈ s
  · simpa [hm] using h
  · simp [hm, List.nodup_append, h]

theorem fpsFrom_aux (ps : List JsFilePath) :
    ∀ s : List (List Char), s.Nodup → (ps.foldl fpsAdd s).Nodup := by
  induction ps with
  | nil => intro s h; simpa using h
  | cons p rest ih =>
    intro s h
    exact ih (fpsAdd s p) (setAddL_nodup s p.path h)

theorem fpsFrom_nodup (ps : List JsFilePath) : (fpsFrom ps).Nodup :=
  fpsFrom_aux ps [] (by simp)

/-- C10: a `FilePathSet` has value semantics keyed on the path string: for
any set built from `FilePath` objects, adding an object `q` whose string
equals that of an already-present member `p` leaves the size unchanged,
`has(q)` answers true, the base set never holds duplicate strings, and
iteration yields exactly the distinct path strings (each once) — the `oid`
(object identity) of `p` and `q` is arbitrary and never consulted. -/
theorem c10_filepathset_value_semantics (ps : List JsFilePath) (p q : JsFilePath)
    (hq : q.path = p.path) (hp : p.path ∈ fpsFrom ps) :
    fpsSize (fpsAdd (fpsFrom ps) q) = fpsSize (fpsFrom ps) ∧
    fpsHas (fpsFrom ps) q = true ∧
    (fpsFrom ps).Nodup ∧
    (fpsValues (fpsFrom ps)).map JsFilePath.path = fpsFrom ps := by
  refine ⟨?_, ?_, fpsFrom_nodup ps, ?_⟩
  · simp [fpsAdd, setAddL, hq, hp]
  · simp [fpsHas, hq, hp]
  · unfold fpsValues
    rw [List.map_map]
    have hcomp : (JsFilePath.path ∘ fun str => (⟨str, 0⟩ : JsFilePath)) = id := rfl
    rw [hcomp, List.map_id]

/-- Witness for C10: the set `{/a}` built from an object with identity 7;
the string-equal object with identity 42 is not added twice and is reported
as a member. -/
theorem c10_filepathset_value_semantics_witness :
    (⟨"/a".data, 42⟩ : JsFilePath).path = (⟨"/a".data, 7⟩ : JsFilePath).path ∧
    (⟨"/a".data, 7⟩ : JsFilePath).path ∈ fpsFrom [⟨"/a".data, 7⟩] ∧
    fpsSize (fpsAdd (fpsFrom [⟨"/a".data, 7⟩]) ⟨"/a".data, 42⟩) = 1 ∧
    fpsHas (fpsFrom [⟨"/a".data, 7⟩]) ⟨"/a".data, 42⟩ = true :=
  ⟨rfl, by decide,
    ((c10_filepathset_value_semantics [⟨"/a".data, 7⟩] ⟨"/a".data, 7⟩ ⟨"/a".data, 42⟩
        rfl (by decide)).1).trans (by decide),
    (c10_filepathset_value_semantics [⟨"/a".data, 7⟩] ⟨"/a".data, 7⟩ ⟨"/a".data, 42⟩
        rfl (by decide)).2.1⟩

end GeckoCpp
